import Mathlib

/-!
Shallow embedding of `src/train.py` (the `ecgTrainer` class of the
hyc481/ecg_pytorch repository).

The trainer orchestrates an epoch-based train/validate cycle.  The pieces the
surrounding framework supplies (model forward pass, optimizer math, the data
loader) are opaque collaborators: a batch is abstracted to the data the
trainer itself consumes, namely the scalar loss value `loss.item()`, the
ground-truth label vector `batch["class"]`, and the predicted label vector
obtained from `predictions.topk(k=1)`.  Losses are modelled with rationals so
the divisions performed at the end of a pass are exact.

State the Python object mutates or emits is made explicit: the counters
`training_epoch` and `total_iter`, the scalar-log event stream written through
`SummaryWriter.add_scalar`, the checkpoint files written by `save_checkpoint`,
the per-iteration progress prints, and the number of `optimizer.step()` calls.

A data-loader pass is a list of batches plus a flag saying whether the
iterator raises after yielding them; Python exceptions (iterator faults and
`ZeroDivisionError` at metric reduction) are modelled with `Except`.
-/

namespace EcgTrain

/-- What one batch contributes to the trainer: the scalar loss, the
ground-truth class labels and the top-1 predicted class labels. -/
structure Batch where
  loss : ℚ
  gt : List Int
  pd : List Int
deriving DecidableEq

/-- One data-loader pass: the batches the iterator yields, and whether it
raises an exception after yielding them (partway through the pass). -/
structure PassData where
  batches : List Batch
  raises : Bool
deriving DecidableEq

/-- The loader data an epoch of `loop()` consumes: one train pass and one
validation pass. -/
structure EpochData where
  train : PassData
  valid : PassData

/-- One `SummaryWriter.add_scalar(tag, value, step)` event. -/
structure LogEvent where
  tag : String
  value : ℚ
  step : Nat
deriving DecidableEq

/-- A checkpoint file as written by `save_checkpoint` in `loop()`: the file
name, and the stored `epoch` and `total_iter` entries.  The stored model and
optimizer state dicts are opaque and not modelled. -/
structure Checkpoint where
  filename : String
  epoch : Nat
  total_iter : Nat
deriving DecidableEq

/-- The observable state of an `ecgTrainer` object: its two counters, the
configured epoch bound, and the event streams it has emitted. -/
structure TrainerState where
  training_epoch : Nat
  total_iter : Nat
  epochs : Nat
  logs : List LogEvent
  checkpoints : List Checkpoint
  progressPrints : List Nat
  opt_steps : Nat
deriving DecidableEq

/-- The two ways a pass aborts: the loader iterator raises partway, or the
metric reduction divides by zero (`ZeroDivisionError`). -/
inductive TrainError where
  | iterFault
  | divByZero
deriving DecidableEq

/-- `sum(pd_class == gt_class)`: number of positions where predicted and
ground-truth labels agree (the arrays have equal length in the program). -/
def countMatches (pd gt : List Int) : Nat :=
  (List.zip pd gt).countP (fun p => p.1 == p.2)

/-- `class_accuracy = sum(pd_class == gt_class) / pd_class.shape[0]`. -/
def class_accuracy (pd gt : List Int) : ℚ :=
  (countMatches pd gt : ℚ) / (pd.length : ℚ)

/-- The running state of the `for i, batch in enumerate(self.train_loader)`
loop in `train_epoch`: the enumeration index, the trainer's global step
counter, the loss accumulator, the two label accumulators, the per-iteration
log events emitted so far, the 1-based iteration numbers at which the
progress print fired, and the number of `optimizer.step()` calls. -/
structure IterState where
  idx : Nat
  total_iter : Nat
  total_loss : ℚ
  gt_class : List Int
  pd_class : List Int
  iterLogs : List LogEvent
  printed : List Nat
  steps : Nat
deriving DecidableEq

/-- One iteration of the `train_epoch` batch loop (`src/train.py` lines
90-116): accumulate labels and loss, take one optimizer step, print progress
on every 100th batch, log the batch loss against the current global step and
increment the global step by one. -/
def trainStep (st : IterState) (b : Batch) : IterState :=
  { idx := st.idx + 1
    total_iter := st.total_iter + 1
    total_loss := st.total_loss + b.loss
    gt_class := st.gt_class ++ b.gt
    pd_class := st.pd_class ++ b.pd
    iterLogs := st.iterLogs ++ [⟨"Train loss (iterations)", b.loss, st.total_iter⟩]
    printed := if (st.idx + 1) % 100 = 0 then st.printed ++ [st.idx + 1] else st.printed
    steps := st.steps + 1 }

/-- Initial loop state: empty accumulators, global step from the trainer. -/
def initIter (total_iter : Nat) : IterState :=
  ⟨0, total_iter, 0, [], [], [], [], 0⟩

/-- Run the `train_epoch` batch loop over the batches the iterator yields. -/
def runPass (total_iter : Nat) (bs : List Batch) : IterState :=
  bs.foldl trainStep (initIter total_iter)

/-- `ecgTrainer.train_epoch` (`src/train.py` lines 83-127).  Runs the batch
loop, then — if the iterator did not raise — reduces the accumulators to the
mean training loss and the class accuracy and logs both against the current
(not yet incremented) epoch index.  A pass with zero batches, or with zero
accumulated examples, hits a `ZeroDivisionError` at the reduction. -/
def train_epoch (s : TrainerState) (d : PassData) :
    TrainerState × Except TrainError Unit :=
  let st := runPass s.total_iter d.batches
  let s1 : TrainerState :=
    { s with
      total_iter := st.total_iter
      logs := s.logs ++ st.iterLogs
      progressPrints := s.progressPrints ++ st.printed
      opt_steps := s.opt_steps + st.steps }
  if d.raises then (s1, Except.error TrainError.iterFault)
  else if d.batches.length = 0 then (s1, Except.error TrainError.divByZero)
  else if st.pd_class.length = 0 then (s1, Except.error TrainError.divByZero)
  else
    let total_loss := st.total_loss / (d.batches.length : ℚ)
    let acc := class_accuracy st.pd_class st.gt_class
    ({ s1 with
        logs := s1.logs ++
          [⟨"Train loss (epochs)", total_loss, s.training_epoch⟩,
           ⟨"Train CLASS accuracy", acc, s.training_epoch⟩] },
     Except.ok ())

/-- The accumulators of the validation batch loop (`src/train.py` lines
131-148): loss sum and the two label collections.  No logging, no progress
print bookkeeping, no optimizer, no global-step change happens per batch. -/
structure ValAcc where
  total_loss : ℚ
  gt_class : List Int
  pd_class : List Int
deriving DecidableEq

/-- One iteration of the validation batch loop. -/
def valStep (st : ValAcc) (b : Batch) : ValAcc :=
  { total_loss := st.total_loss + b.loss
    gt_class := st.gt_class ++ b.gt
    pd_class := st.pd_class ++ b.pd }

/-- Run the validation batch loop. -/
def runValPass (bs : List Batch) : ValAcc :=
  bs.foldl valStep ⟨0, [], []⟩

/-- `ecgTrainer.val` (`src/train.py` lines 129-161).  Accumulates under
`torch.no_grad()`, reduces to mean validation loss and class accuracy, logs
both against the current epoch index, and returns the mean loss. -/
def val (s : TrainerState) (d : PassData) :
    TrainerState × Except TrainError ℚ :=
  let st := runValPass d.batches
  if d.raises then (s, Except.error TrainError.iterFault)
  else if d.batches.length = 0 then (s, Except.error TrainError.divByZero)
  else if st.pd_class.length = 0 then (s, Except.error TrainError.divByZero)
  else
    let total_loss := st.total_loss / (d.batches.length : ℚ)
    let acc := class_accuracy st.pd_class st.gt_class
    ({ s with
        logs := s.logs ++
          [⟨"Validation loss", total_loss, s.training_epoch⟩,
           ⟨"Validation CLASS accuracy", acc, s.training_epoch⟩] },
     Except.ok total_loss)

/-- The checkpoint file stem: the epoch index rendered in decimal and
left-padded with zeros to at least eight characters, exactly as the Python
format specification `0>8` produces. -/
def zeroPad8 (n : Nat) : String :=
  String.mk (List.replicate (8 - (toString n).length) '0' ++ (toString n).toList)

/-- The checkpoint file name used in `loop()`: padded epoch index plus the
`.pth` extension. -/
def checkpointName (epoch : Nat) : String :=
  zeroPad8 epoch ++ ".pth"

/-- `save_checkpoint` as called from `loop()` (`src/train.py` lines 168-176):
append a new checkpoint file recording the current epoch index (before the
`training_epoch` increment) and the current global step count. -/
def save_checkpoint (s : TrainerState) (epoch : Nat) : TrainerState :=
  { s with checkpoints := s.checkpoints ++ [⟨checkpointName epoch, epoch, s.total_iter⟩] }

/-- Modelled from the spec: `load_checkpoint` lives in `utils.py`, which is
not under `src/`.  Per the spec it restores model and optimizer state in
place and returns the checkpoint's stored (epoch index, global step count)
pair to the caller. -/
def load_checkpoint (c : Checkpoint) : Nat × Nat :=
  (c.epoch, c.total_iter)

/-- `ecgTrainer.__init__` (`src/train.py` lines 24-51), restricted to the
state the claims are about.  `model_path` is the optional configuration
entry; an absent key or a falsy (empty-string) value leaves both counters at
zero, otherwise the counters come from the checkpoint found at that path
(`fs` plays the file system).  Directory creation, writer, model, optimizer,
criterion and loader construction have no effect on this state. -/
def ecgTrainer_init (epochs : Nat) (model_path : Option String)
    (fs : String → Checkpoint) : TrainerState :=
  let counters : Nat × Nat :=
    match model_path with
    | some p => if p = "" then (0, 0) else load_checkpoint (fs p)
    | none => (0, 0)
  { training_epoch := counters.1
    total_iter := counters.2
    epochs := epochs
    logs := []
    checkpoints := []
    progressPrints := []
    opt_steps := 0 }

/-- The body of one iteration of `loop()` (`src/train.py` lines 165-181):
train pass, then checkpoint save under the iteration's epoch index, then
validation pass (whose returned loss is captured but unused since the
scheduler is disabled), then the `training_epoch` increment.  An exception
in either pass propagates and skips the rest of the body. -/
def loopStep (data : Nat → EpochData) (s : TrainerState) (epoch : Nat) :
    TrainerState × Except TrainError Unit :=
  match train_epoch s (data epoch).train with
  | (s1, Except.error e) => (s1, Except.error e)
  | (s1, Except.ok _) =>
    let s2 := save_checkpoint s1 epoch
    match val s2 (data epoch).valid with
    | (s3, Except.error e) => (s3, Except.error e)
    | (s3, Except.ok _) =>
      ({ s3 with training_epoch := s3.training_epoch + 1 }, Except.ok ())

/-- Run `loop()`'s body over a list of epoch indices, stopping at the first
propagating exception. -/
def loopAux (data : Nat → EpochData) :
    TrainerState → List Nat → TrainerState × Except TrainError Unit
  | s, [] => (s, Except.ok ())
  | s, e :: es =>
    match loopStep data s e with
    | (s', Except.error err) => (s', Except.error err)
    | (s', Except.ok _) => loopAux data s' es

/-- `ecgTrainer.loop` (`src/train.py` lines 163-181):
`for epoch in range(self.training_epoch, self.epochs)`, with the range fixed
at entry. -/
def loop (s : TrainerState) (data : Nat → EpochData) :
    TrainerState × Except TrainError Unit :=
  loopAux data s (List.range' s.training_epoch (s.epochs - s.training_epoch))

/-- A pass completes normally exactly when the iterator does not raise, it
yields at least one batch, and at least one example (predicted label) was
accumulated. -/
def passOk (d : PassData) : Bool :=
  !d.raises && !d.batches.isEmpty && !((d.batches.map Batch.pd).flatten).isEmpty

/-- All predicted labels of a pass, in order (the final `pd_class`). -/
def pdAll (d : PassData) : List Int :=
  (d.batches.map Batch.pd).flatten

/-- All ground-truth labels of a pass, in order (the final `gt_class`). -/
def gtAll (d : PassData) : List Int :=
  (d.batches.map Batch.gt).flatten

/-- Sum of the per-batch losses of a pass. -/
def lossSum (d : PassData) : ℚ :=
  (d.batches.map Batch.loss).sum

/-- The mean loss a completed pass reports: loss sum over batch count. -/
def meanLoss (d : PassData) : ℚ :=
  lossSum d / (d.batches.length : ℚ)

/-- The per-iteration loss log events of a train pass whose first batch is
processed at global step `t`: batch `j` is logged against step `t + j`. -/
def iterLogsFrom (t : Nat) : List Batch → List LogEvent
  | [] => []
  | b :: bs => ⟨"Train loss (iterations)", b.loss, t⟩ :: iterLogsFrom (t + 1) bs

/-- The 1-based iteration numbers at which the progress print fires, for a
run of `n` batches whose first batch has 0-based index `i`. -/
def printsFrom (i : Nat) : Nat → List Nat
  | 0 => []
  | n + 1 => (if (i + 1) % 100 = 0 then [i + 1] else []) ++ printsFrom (i + 1) n

/-- The checkpoints a fault-free run of `loop()`'s body over the epoch list
writes, when the global step count at the start is `t`. -/
def checkpointsFor (data : Nat → EpochData) (t : Nat) : List Nat → List Checkpoint
  | [] => []
  | e :: es =>
    ⟨checkpointName e, e, t + (data e).train.batches.length⟩ ::
      checkpointsFor data (t + (data e).train.batches.length) es

/-- Total number of train batches a fault-free run over the epoch list
processes. -/
def itersFor (data : Nat → EpochData) : List Nat → Nat
  | [] => 0
  | e :: es => (data e).train.batches.length + itersFor data es

/-! ### Characterization of the train-pass batch loop -/

lemma foldl_trainStep_spec (bs : List Batch) : ∀ st : IterState,
    bs.foldl trainStep st =
      ⟨st.idx + bs.length, st.total_iter + bs.length,
       st.total_loss + (bs.map Batch.loss).sum,
       st.gt_class ++ (bs.map Batch.gt).flatten,
       st.pd_class ++ (bs.map Batch.pd).flatten,
       st.iterLogs ++ iterLogsFrom st.total_iter bs,
       st.printed ++ printsFrom st.idx bs.length,
       st.steps + bs.length⟩ := by
  induction bs with
  | nil =>
    intro st
    cases st
    simp [iterLogsFrom, printsFrom]
  | cons b bs ih =>
    intro st
    rw [List.foldl_cons, ih]
    cases st with
    | mk idx t loss gt pd lg pr stp =>
      simp only [trainStep, iterLogsFrom, printsFrom, List.map_cons, List.sum_cons,
        List.flatten_cons, List.length_cons, IterState.mk.injEq, List.append_assoc,
        List.singleton_append, List.nil_append]
      refine ⟨by omega, by omega, by ring, trivial, trivial, trivial, ?_, by omega⟩
      by_cases h : (idx + 1) % 100 = 0 <;> simp [h, List.append_assoc]

lemma runPass_spec (t : Nat) (bs : List Batch) :
    runPass t bs =
      ⟨bs.length, t + bs.length, (bs.map Batch.loss).sum,
       (bs.map Batch.gt).flatten, (bs.map Batch.pd).flatten,
       iterLogsFrom t bs, printsFrom 0 bs.length, bs.length⟩ := by
  rw [runPass, foldl_trainStep_spec]
  simp [initIter]

lemma foldl_valStep_spec (bs : List Batch) : ∀ st : ValAcc,
    bs.foldl valStep st =
      ⟨st.total_loss + (bs.map Batch.loss).sum,
       st.gt_class ++ (bs.map Batch.gt).flatten,
       st.pd_class ++ (bs.map Batch.pd).flatten⟩ := by
  induction bs with
  | nil =>
    intro st
    cases st
    simp
  | cons b bs ih =>
    intro st
    rw [List.foldl_cons, ih]
    cases st
    simp only [valStep, List.map_cons, List.sum_cons, List.flatten_cons,
      ValAcc.mk.injEq, List.append_assoc]
    exact ⟨by ring, trivial, trivial⟩

lemma runValPass_spec (bs : List Batch) :
    runValPass bs =
      ⟨(bs.map Batch.loss).sum, (bs.map Batch.gt).flatten, (bs.map Batch.pd).flatten⟩ := by
  rw [runValPass, foldl_valStep_spec]
  simp

/-! ### Branch characterization of the two passes -/

/-- The state `train_epoch` leaves behind in every branch, before the two
epoch-level log events are appended on success: global step advanced by the
batch count, per-iteration logs and progress prints appended, one optimizer
step per batch. -/
def trainPassState (s : TrainerState) (d : PassData) : TrainerState :=
  { s with
    total_iter := s.total_iter + d.batches.length
    logs := s.logs ++ iterLogsFrom s.total_iter d.batches
    progressPrints := s.progressPrints ++ printsFrom 0 d.batches.length
    opt_steps := s.opt_steps + d.batches.length }

lemma passOk_iff (d : PassData) :
    passOk d = true ↔ d.raises = false ∧ d.batches ≠ [] ∧ pdAll d ≠ [] := by
  simp only [passOk, pdAll, Bool.and_eq_true, Bool.not_eq_true',
    List.isEmpty_eq_false, and_assoc]

lemma train_epoch_raises (s : TrainerState) (d : PassData) (h : d.raises = true) :
    train_epoch s d = (trainPassState s d, Except.error TrainError.iterFault) := by
  simp [train_epoch, runPass_spec, trainPassState, h]

lemma train_epoch_noBatch (s : TrainerState) (d : PassData)
    (h1 : d.raises = false) (h2 : d.batches = []) :
    train_epoch s d = (s, Except.error TrainError.divByZero) := by
  simp [train_epoch, runPass_spec, h1, h2, iterLogsFrom, printsFrom]

lemma train_epoch_ok (s : TrainerState) (d : PassData) (h : passOk d = true) :
    train_epoch s d =
      ({ trainPassState s d with
          logs := (trainPassState s d).logs ++
            [⟨"Train loss (epochs)", meanLoss d, s.training_epoch⟩,
             ⟨"Train CLASS accuracy", class_accuracy (pdAll d) (gtAll d),
              s.training_epoch⟩] },
       Except.ok ()) := by
  obtain ⟨h1, h2, h3⟩ := (passOk_iff d).1 h
  have hlen : d.batches.length ≠ 0 := by
    simpa [List.length_eq_zero] using h2
  have hpd : (List.map (List.length ∘ Batch.pd) d.batches).sum ≠ 0 := by
    have hne : (pdAll d).length ≠ 0 := fun hc => h3 (List.length_eq_zero.1 hc)
    simpa [pdAll, List.length_flatten, List.map_map] using hne
  simp [train_epoch, runPass_spec, trainPassState, h1, hlen, hpd,
    meanLoss, lossSum, pdAll, gtAll]

lemma train_epoch_noPd (s : TrainerState) (d : PassData)
    (h1 : d.raises = false) (h2 : d.batches ≠ []) (h3 : pdAll d = []) :
    train_epoch s d = (trainPassState s d, Except.error TrainError.divByZero) := by
  have hlen : d.batches.length ≠ 0 := by
    simpa [List.length_eq_zero] using h2
  have hpd : (List.map (List.length ∘ Batch.pd) d.batches).sum = 0 := by
    simpa [pdAll, List.length_flatten, List.map_map] using congrArg List.length h3
  simp [train_epoch, runPass_spec, trainPassState, h1, hlen, hpd]

lemma val_raises (s : TrainerState) (d : PassData) (h : d.raises = true) :
    val s d = (s, Except.error TrainError.iterFault) := by
  simp [val, h]

lemma val_noBatch (s : TrainerState) (d : PassData)
    (h1 : d.raises = false) (h2 : d.batches = []) :
    val s d = (s, Except.error TrainError.divByZero) := by
  simp [val, h1, h2]

lemma val_ok (s : TrainerState) (d : PassData) (h : passOk d = true) :
    val s d =
      ({ s with
          logs := s.logs ++
            [⟨"Validation loss", meanLoss d, s.training_epoch⟩,
             ⟨"Validation CLASS accuracy", class_accuracy (pdAll d) (gtAll d),
              s.training_epoch⟩] },
       Except.ok (meanLoss d)) := by
  obtain ⟨h1, h2, h3⟩ := (passOk_iff d).1 h
  have hlen : d.batches.length ≠ 0 := by
    simpa [List.length_eq_zero] using h2
  have hpd : (List.map (List.length ∘ Batch.pd) d.batches).sum ≠ 0 := by
    have hne : (pdAll d).length ≠ 0 := fun hc => h3 (List.length_eq_zero.1 hc)
    simpa [pdAll, List.length_flatten, List.map_map] using hne
  simp [val, runValPass_spec, h1, hlen, hpd, meanLoss, lossSum, pdAll, gtAll]

/-! ### The per-iteration logging and printing streams -/

lemma printsFrom_eq_filter (n : Nat) : ∀ i : Nat,
    printsFrom i n = (List.range' (i + 1) n).filter (fun m => m % 100 == 0) := by
  induction n with
  | zero =>
    intro i
    simp [printsFrom]
  | succ n ih =>
    intro i
    rw [printsFrom, List.range'_succ, List.filter_cons, ih (i + 1)]
    by_cases h : (i + 1) % 100 = 0 <;> simp [h]

lemma iterLogsFrom_length (bs : List Batch) : ∀ t : Nat,
    (iterLogsFrom t bs).length = bs.length := by
  induction bs with
  | nil => intro t; simp [iterLogsFrom]
  | cons b bs ih => intro t; simp [iterLogsFrom, ih]

lemma iterLogsFrom_getElem? (bs : List Batch) : ∀ t j : Nat,
    (iterLogsFrom t bs)[j]? =
      (bs[j]?).map (fun b => ⟨"Train loss (iterations)", b.loss, t + j⟩) := by
  induction bs with
  | nil =>
    intro t j
    simp [iterLogsFrom]
  | cons b bs ih =>
    intro t j
    cases j with
    | zero => simp [iterLogsFrom]
    | succ j =>
      rw [iterLogsFrom]
      simp only [List.getElem?_cons_succ, ih (t + 1) j]
      have : t + 1 + j = t + (j + 1) := by omega
      rw [this]

/-! ### The epoch driver -/

lemma loopStep_ok (data : Nat → EpochData) (s : TrainerState) (e : Nat)
    (h1 : passOk (data e).train = true) (h2 : passOk (data e).valid = true) :
    (loopStep data s e).2 = Except.ok () ∧
    (loopStep data s e).1.training_epoch = s.training_epoch + 1 ∧
    (loopStep data s e).1.epochs = s.epochs ∧
    (loopStep data s e).1.total_iter = s.total_iter + (data e).train.batches.length ∧
    (loopStep data s e).1.checkpoints = s.checkpoints ++
      [⟨checkpointName e, e, s.total_iter + (data e).train.batches.length⟩] := by
  unfold loopStep
  rw [train_epoch_ok s _ h1]
  dsimp only
  rw [val_ok _ _ h2]
  simp [save_checkpoint, trainPassState]

lemma loopAux_ok (data : Nat → EpochData) (es : List Nat) : ∀ s : TrainerState,
    (∀ e ∈ es, passOk (data e).train = true ∧ passOk (data e).valid = true) →
    (loopAux data s es).2 = Except.ok () ∧
    (loopAux data s es).1.training_epoch = s.training_epoch + es.length ∧
    (loopAux data s es).1.epochs = s.epochs ∧
    (loopAux data s es).1.total_iter = s.total_iter + itersFor data es ∧
    (loopAux data s es).1.checkpoints =
      s.checkpoints ++ checkpointsFor data s.total_iter es := by
  induction es with
  | nil =>
    intro s h
    simp [loopAux, itersFor, checkpointsFor]
  | cons e es ih =>
    intro s h
    have he := h e (List.mem_cons_self e es)
    obtain ⟨hok, hte, hep, hti, hck⟩ := loopStep_ok data s e he.1 he.2
    have hsplit : loopStep data s e = ((loopStep data s e).1, Except.ok ()) := by
      rw [← hok]
    rw [loopAux, hsplit]
    obtain ⟨o1, o2, o3, o4, o5⟩ :=
      ih (loopStep data s e).1 (fun x hx => h x (List.mem_cons_of_mem e hx))
    refine ⟨o1, ?_, ?_, ?_, ?_⟩
    · rw [o2, hte]
      simp [List.length_cons]
      omega
    · rw [o3, hep]
    · rw [o4, hti, itersFor]
      omega
    · rw [o5, hck, hti, checkpointsFor]
      simp [List.append_assoc]

lemma loopAux_append_ok (data : Nat → EpochData) (es1 : List Nat) :
    ∀ (s s' : TrainerState) (es2 : List Nat),
    loopAux data s es1 = (s', Except.ok ()) →
    loopAux data s (es1 ++ es2) = loopAux data s' es2 := by
  induction es1 with
  | nil =>
    intro s s' es2 h
    rw [loopAux] at h
    cases h
    simp
  | cons e es1 ih =>
    intro s s' es2 h
    rw [List.cons_append, loopAux]
    rw [loopAux] at h
    cases hl : loopStep data s e with
    | mk s1 r =>
      rw [hl] at h
      cases r with
      | error err => simp at h
      | ok u => exact ih s1 s' es2 h

lemma loopAux_fail_first (data : Nat → EpochData) (s : TrainerState) (e : Nat)
    (es : List Nat) (h : (data e).train.raises = true) :
    loopAux data s (e :: es) =
      (trainPassState s (data e).train, Except.error TrainError.iterFault) := by
  have hstep : loopStep data s e =
      (trainPassState s (data e).train, Except.error TrainError.iterFault) := by
    unfold loopStep
    rw [train_epoch_raises s _ h]
  rw [loopAux, hstep]

lemma countMatches_self (l : List Int) : countMatches l l = l.length := by
  induction l with
  | nil => simp [countMatches]
  | cons a l ih =>
    simp only [countMatches, List.zip_cons_cons, List.countP_cons] at ih ⊢
    simp [ih]

/-- In every branch, the state `train_epoch` returns is `trainPassState`
with some further log events appended, none of them per-iteration ones. -/
lemma train_epoch_fst_shape (s : TrainerState) (d : PassData) :
    ∃ tail : List LogEvent,
      (train_epoch s d).1 =
        { trainPassState s d with logs := (trainPassState s d).logs ++ tail } ∧
      ∀ ev ∈ tail, ev.tag ≠ "Train loss (iterations)" := by
  by_cases hr : d.raises = true
  · refine ⟨[], ?_, by simp⟩
    rw [train_epoch_raises s d hr]
    simp
  · have hr' : d.raises = false := by simpa using hr
    by_cases hb : d.batches = []
    · refine ⟨[], ?_, by simp⟩
      rw [train_epoch_noBatch s d hr' hb]
      simp [trainPassState, hb, iterLogsFrom, printsFrom]
    · by_cases hp : pdAll d = []
      · refine ⟨[], ?_, by simp⟩
        rw [train_epoch_noPd s d hr' hb hp]
        simp
      · refine ⟨[⟨"Train loss (epochs)", meanLoss d, s.training_epoch⟩,
                 ⟨"Train CLASS accuracy", class_accuracy (pdAll d) (gtAll d),
                  s.training_epoch⟩], ?_, ?_⟩
        · rw [train_epoch_ok s d ((passOk_iff d).2 ⟨hr', hb, hp⟩)]
        · intro ev hev
          simp only [List.mem_cons, List.not_mem_nil, or_false] at hev
          rcases hev with h | h <;> subst h <;> simp

/-- `train_epoch` advances the global step by the batch count in every
branch, including a pass the iterator aborts. -/
lemma train_epoch_fst_total_iter (s : TrainerState) (d : PassData) :
    (train_epoch s d).1.total_iter = s.total_iter + d.batches.length := by
  obtain ⟨tail, hshape, -⟩ := train_epoch_fst_shape s d
  rw [hshape]
  simp [trainPassState]

lemma checkpointsFor_map_epoch (data : Nat → EpochData) (es : List Nat) :
    ∀ t : Nat, (checkpointsFor data t es).map Checkpoint.epoch = es := by
  induction es with
  | nil => intro t; simp [checkpointsFor]
  | cons e es ih => intro t; simp [checkpointsFor, ih]

lemma checkpointsFor_map_filename (data : Nat → EpochData) (es : List Nat) :
    ∀ t : Nat, (checkpointsFor data t es).map Checkpoint.filename = es.map checkpointName := by
  induction es with
  | nil => intro t; simp [checkpointsFor]
  | cons e es ih => intro t; simp [checkpointsFor, ih]

lemma checkpointsFor_length (data : Nat → EpochData) (es : List Nat) :
    ∀ t : Nat, (checkpointsFor data t es).length = es.length := by
  induction es with
  | nil => intro t; simp [checkpointsFor]
  | cons e es ih => intro t; simp [checkpointsFor, ih]

lemma checkpointsFor_mem_epoch (data : Nat → EpochData) (es : List Nat) :
    ∀ t : Nat, ∀ c ∈ checkpointsFor data t es, c.epoch ∈ es := by
  induction es with
  | nil =>
    intro t c hc
    simp [checkpointsFor] at hc
  | cons e es ih =>
    intro t c hc
    rw [checkpointsFor] at hc
    rcases List.mem_cons.1 hc with h | h
    · subst h
      simp
    · exact List.mem_cons_of_mem e (ih _ c h)

/-! ### Concrete inputs used by the witnesses -/

/-- One batch: loss 2, two examples, one of them predicted correctly. -/
def bDemo : Batch := ⟨2, [1, 0], [1, 1]⟩

/-- One fault-free pass of one batch. -/
def dDemo : PassData := ⟨[bDemo], false⟩

/-- Loader data in which every pass completes. -/
def dataDemo : Nat → EpochData := fun _ => ⟨dDemo, dDemo⟩

/-- A fresh trainer state configured for two epochs. -/
def sW : TrainerState := ⟨0, 0, 2, [], [], [], 0⟩

/-- Loader data whose epoch-1 train iterator raises partway through. -/
def dataFail : Nat → EpochData := fun e =>
  if e = 1 then ⟨⟨[bDemo], true⟩, dDemo⟩ else ⟨dDemo, dDemo⟩

/-! ### The claims -/

/-- C2: running `loop()` from `training_epoch = e0` with `epochs = e1`,
`e0 < e1`, when every pass completes, succeeds, writes exactly `e1 - e0`
checkpoint files, named by the zero-padded epoch indices `e0 .. e1-1` (with
the `.pth` extension) and recording those epoch indices, and leaves
`training_epoch = e1`. -/
theorem c2_loop_checkpoints (s : TrainerState) (data : Nat → EpochData)
    (e0 e1 : Nat) (h0 : s.training_epoch = e0) (h1 : s.epochs = e1) (hlt : e0 < e1)
    (hok : ∀ e, e0 ≤ e → e < e1 →
      passOk (data e).train = true ∧ passOk (data e).valid = true) :
    (loop s data).2 = Except.ok () ∧
    (loop s data).1.training_epoch = e1 ∧
    ∃ cs : List Checkpoint,
      (loop s data).1.checkpoints = s.checkpoints ++ cs ∧
      cs.length = e1 - e0 ∧
      cs.map Checkpoint.filename = (List.range' e0 (e1 - e0)).map checkpointName ∧
      cs.map Checkpoint.epoch = List.range' e0 (e1 - e0) := by
  subst h0
  subst h1
  have hmem : ∀ e ∈ List.range' s.training_epoch (s.epochs - s.training_epoch),
      passOk (data e).train = true ∧ passOk (data e).valid = true := by
    intro e he
    rw [List.mem_range'_1] at he
    exact hok e he.1 (by omega)
  obtain ⟨o1, o2, o3, o4, o5⟩ := loopAux_ok data _ s hmem
  unfold loop
  refine ⟨o1, ?_, checkpointsFor data s.total_iter _, o5, ?_, ?_, ?_⟩
  · rw [o2]
    simp only [List.length_range']
    omega
  · rw [checkpointsFor_length]
    simp only [List.length_range']
  · rw [checkpointsFor_map_filename]
  · rw [checkpointsFor_map_epoch]

theorem c2_loop_checkpoints_witness :
    sW.training_epoch = 0 ∧ sW.epochs = 2 ∧ (0 : Nat) < 2 ∧
    (∀ e, 0 ≤ e → e < 2 →
      passOk (dataDemo e).train = true ∧ passOk (dataDemo e).valid = true) ∧
    ((loop sW dataDemo).2 = Except.ok () ∧
     (loop sW dataDemo).1.training_epoch = 2 ∧
     ∃ cs : List Checkpoint,
       (loop sW dataDemo).1.checkpoints = sW.checkpoints ++ cs ∧
       cs.length = 2 - 0 ∧
       cs.map Checkpoint.filename = (List.range' 0 (2 - 0)).map checkpointName ∧
       cs.map Checkpoint.epoch = List.range' 0 (2 - 0)) :=
  ⟨rfl, rfl, by decide, fun e _ _ => ⟨rfl, rfl⟩,
   c2_loop_checkpoints sW dataDemo 0 2 rfl rfl (by decide) (fun e _ _ => ⟨rfl, rfl⟩)⟩

/-- C4: a call to `train_epoch` increases `total_iter` by exactly the number
of batches the train iterator produced in that pass. -/
theorem c4_total_iter (s : TrainerState) (d : PassData)
    (_h : (train_epoch s d).2 = Except.ok ()) :
    (train_epoch s d).1.total_iter = s.total_iter + d.batches.length :=
  train_epoch_fst_total_iter s d

theorem c4_total_iter_witness :
    (train_epoch sW dDemo).2 = Except.ok () ∧
    (train_epoch sW dDemo).1.total_iter = sW.total_iter + dDemo.batches.length :=
  ⟨rfl, c4_total_iter sW dDemo rfl⟩

/-- C9: if `training_epoch` is at least `epochs` when `loop()` is entered,
the range is empty, so `loop()` returns at once with the state unchanged:
no pass runs, no checkpoint is written, the counters keep their values. -/
theorem c9_loop_noop (s : TrainerState) (data : Nat → EpochData)
    (h : s.epochs ≤ s.training_epoch) :
    loop s data = (s, Except.ok ()) := by
  unfold loop
  rw [Nat.sub_eq_zero_of_le h]
  simp [loopAux]

theorem c9_loop_noop_witness :
    (⟨5, 7, 3, [], [], [], 0⟩ : TrainerState).epochs ≤
      (⟨5, 7, 3, [], [], [], 0⟩ : TrainerState).training_epoch ∧
    loop ⟨5, 7, 3, [], [], [], 0⟩ dataDemo = (⟨5, 7, 3, [], [], [], 0⟩, Except.ok ()) :=
  ⟨by decide, c9_loop_noop ⟨5, 7, 3, [], [], [], 0⟩ dataDemo (by decide)⟩

/-- C10: a pass whose loader yields zero batches (and does not itself raise)
aborts both `train_epoch` and `val` with the division-by-zero fault raised
when the accumulated loss is divided by the number of batches, so the mean
loss and the accuracy are only defined for a pass of at least one batch. -/
theorem c10_zero_batches (s : TrainerState) (d : PassData)
    (h1 : d.raises = false) (h2 : d.batches = []) :
    (train_epoch s d).2 = Except.error TrainError.divByZero ∧
    (val s d).2 = Except.error TrainError.divByZero := by
  rw [train_epoch_noBatch s d h1 h2, val_noBatch s d h1 h2]
  exact ⟨rfl, rfl⟩

/-- C6: if the train iterator of epoch `k` raises partway through (all
earlier epochs completing), `loop()` propagates the fault to its caller, no
checkpoint for epoch `k` is written (beyond any preexisting ones), and
`training_epoch` is not incremented for epoch `k`. -/
theorem c6_train_fault (s : TrainerState) (data : Nat → EpochData) (k : Nat)
    (hk0 : s.training_epoch ≤ k) (hk1 : k < s.epochs)
    (hok : ∀ e, s.training_epoch ≤ e → e < k →
      passOk (data e).train = true ∧ passOk (data e).valid = true)
    (hfail : (data k).train.raises = true) :
    (loop s data).2 = Except.error TrainError.iterFault ∧
    (loop s data).1.training_epoch = k ∧
    (∃ cs : List Checkpoint,
      (loop s data).1.checkpoints = s.checkpoints ++ cs ∧
      cs.map Checkpoint.epoch = List.range' s.training_epoch (k - s.training_epoch)) ∧
    (∀ c ∈ (loop s data).1.checkpoints, c.epoch = k → c ∈ s.checkpoints) := by
  have hsplit : List.range' s.training_epoch (s.epochs - s.training_epoch) =
      List.range' s.training_epoch (k - s.training_epoch) ++
        (k :: List.range' (k + 1) (s.epochs - k - 1)) := by
    have e1 : s.epochs - s.training_epoch =
        (s.epochs - k) + (k - s.training_epoch) := by omega
    rw [e1, ← List.range'_append_1]
    congr 1
    have e2 : s.training_epoch + (k - s.training_epoch) = k := by omega
    have e3 : s.epochs - k = (s.epochs - k - 1) + 1 := by omega
    rw [e2, e3, List.range'_succ]
    simp
  have hmem : ∀ e ∈ List.range' s.training_epoch (k - s.training_epoch),
      passOk (data e).train = true ∧ passOk (data e).valid = true := by
    intro e he
    rw [List.mem_range'_1] at he
    exact hok e he.1 (by omega)
  obtain ⟨o1, o2, o3, o4, o5⟩ := loopAux_ok data _ s hmem
  have hseg : loopAux data s (List.range' s.training_epoch (k - s.training_epoch)) =
      ((loopAux data s (List.range' s.training_epoch (k - s.training_epoch))).1,
        Except.ok ()) := by
    rw [← o1]
  have hloop : loop s data =
      (trainPassState
        (loopAux data s (List.range' s.training_epoch (k - s.training_epoch))).1
        (data k).train,
       Except.error TrainError.iterFault) := by
    unfold loop
    rw [hsplit, loopAux_append_ok data _ s _ _ hseg, loopAux_fail_first data _ k _ hfail]
  rw [hloop]
  refine ⟨rfl, ?_, ?_, ?_⟩
  · show (loopAux data s _).1.training_epoch = k
    rw [o2]
    simp only [List.length_range']
    omega
  · refine ⟨checkpointsFor data s.total_iter
        (List.range' s.training_epoch (k - s.training_epoch)), ?_, ?_⟩
    · show (loopAux data s _).1.checkpoints = _
      exact o5
    · rw [checkpointsFor_map_epoch]
  · intro c hc hck
    have hc' : c ∈ s.checkpoints ++
        checkpointsFor data s.total_iter
          (List.range' s.training_epoch (k - s.training_epoch)) := by
      rw [← o5]
      exact hc
    rcases List.mem_append.1 hc' with h | h
    · exact h
    · exfalso
      have := checkpointsFor_mem_epoch data _ s.total_iter c h
      rw [hck, List.mem_range'_1] at this
      omega

theorem c6_train_fault_witness :
    sW.training_epoch ≤ 1 ∧ (1 : Nat) < sW.epochs ∧
    (∀ e, sW.training_epoch ≤ e → e < 1 →
      passOk (dataFail e).train = true ∧ passOk (dataFail e).valid = true) ∧
    (dataFail 1).train.raises = true ∧
    ((loop sW dataFail).2 = Except.error TrainError.iterFault ∧
     (loop sW dataFail).1.training_epoch = 1 ∧
     (∃ cs : List Checkpoint,
       (loop sW dataFail).1.checkpoints = sW.checkpoints ++ cs ∧
       cs.map Checkpoint.epoch = List.range' sW.training_epoch (1 - sW.training_epoch)) ∧
     (∀ c ∈ (loop sW dataFail).1.checkpoints, c.epoch = 1 → c ∈ sW.checkpoints)) :=
  ⟨by decide, by decide,
   fun e h1 h2 => by
     have he : e = 0 := by omega
     subst he
     exact ⟨rfl, rfl⟩,
   rfl,
   c6_train_fault sW dataFail 1 (by decide) (by decide)
     (fun e h1 h2 => by
       have he : e = 0 := by omega
       subst he
       exact ⟨rfl, rfl⟩)
     rfl⟩

/-- C5: the pass-level accuracy both passes compute and log is the number of
positions where the predicted label equals the ground-truth label, divided by
the total number of examples of the pass; it is 1 when every prediction
matches and 0 when none does. -/
theorem c5_accuracy (s : TrainerState) (d : PassData) (hok : passOk d = true) :
    (⟨"Train CLASS accuracy", class_accuracy (pdAll d) (gtAll d),
        s.training_epoch⟩ : LogEvent) ∈ (train_epoch s d).1.logs ∧
    (⟨"Validation CLASS accuracy", class_accuracy (pdAll d) (gtAll d),
        s.training_epoch⟩ : LogEvent) ∈ (val s d).1.logs ∧
    class_accuracy (pdAll d) (gtAll d) =
      (countMatches (pdAll d) (gtAll d) : ℚ) / ((pdAll d).length : ℚ) ∧
    (pdAll d = gtAll d → class_accuracy (pdAll d) (gtAll d) = 1) ∧
    (countMatches (pdAll d) (gtAll d) = 0 →
      class_accuracy (pdAll d) (gtAll d) = 0) := by
  refine ⟨?_, ?_, rfl, ?_, ?_⟩
  · rw [train_epoch_ok s d hok]
    simp
  · rw [val_ok s d hok]
    simp
  · intro hEq
    have hne : (pdAll d).length ≠ 0 := by
      have h3 := ((passOk_iff d).1 hok).2.2
      simpa [List.length_eq_zero] using h3
    rw [class_accuracy, hEq, countMatches_self]
    exact div_self (by exact_mod_cast (hEq ▸ hne))
  · intro h0
    rw [class_accuracy, h0]
    simp

theorem c5_accuracy_witness :
    passOk dDemo = true ∧
    ((⟨"Train CLASS accuracy", class_accuracy (pdAll dDemo) (gtAll dDemo),
        sW.training_epoch⟩ : LogEvent) ∈ (train_epoch sW dDemo).1.logs ∧
     (⟨"Validation CLASS accuracy", class_accuracy (pdAll dDemo) (gtAll dDemo),
        sW.training_epoch⟩ : LogEvent) ∈ (val sW dDemo).1.logs ∧
     class_accuracy (pdAll dDemo) (gtAll dDemo) =
       (countMatches (pdAll dDemo) (gtAll dDemo) : ℚ) / ((pdAll dDemo).length : ℚ) ∧
     (pdAll dDemo = gtAll dDemo → class_accuracy (pdAll dDemo) (gtAll dDemo) = 1) ∧
     (countMatches (pdAll dDemo) (gtAll dDemo) = 0 →
       class_accuracy (pdAll dDemo) (gtAll dDemo) = 0)) :=
  ⟨rfl, c5_accuracy sW dDemo rfl⟩

/-- C7: in `train_epoch`, batch `j` of the pass has its loss logged against
global step `total_iter + j` (so the counter is incremented exactly once per
batch, also on batches without the progress print), the pass appends exactly
those per-iteration events to the log stream, and the progress print fires
exactly on the batches whose 1-based index is a multiple of 100. -/
theorem c7_iter_logging (s : TrainerState) (d : PassData) :
    (∃ tail : List LogEvent,
      (train_epoch s d).1.logs =
        s.logs ++ iterLogsFrom s.total_iter d.batches ++ tail ∧
      ∀ ev ∈ tail, ev.tag ≠ "Train loss (iterations)") ∧
    (∀ (j : Nat) (b : Batch), d.batches[j]? = some b →
      (iterLogsFrom s.total_iter d.batches)[j]? =
        some ⟨"Train loss (iterations)", b.loss, s.total_iter + j⟩) ∧
    (train_epoch s d).1.total_iter = s.total_iter + d.batches.length ∧
    (train_epoch s d).1.progressPrints =
      s.progressPrints ++
        (List.range' 1 d.batches.length).filter (fun m => m % 100 == 0) := by
  obtain ⟨tail, hshape, htags⟩ := train_epoch_fst_shape s d
  refine ⟨⟨tail, ?_, htags⟩, ?_, train_epoch_fst_total_iter s d, ?_⟩
  · rw [hshape]
    simp [trainPassState]
  · intro j b hj
    rw [iterLogsFrom_getElem?, hj]
    rfl
  · rw [hshape]
    simp [trainPassState, printsFrom_eq_filter]

/-- C8: `val` returns the mean validation loss to its caller, leaves the
global step counter, the epoch counter, the optimizer-step count and the
checkpoint files untouched, and logs the validation accuracy without
returning it. -/
theorem c8_val (s : TrainerState) (d : PassData) (hok : passOk d = true) :
    (val s d).2 = Except.ok (meanLoss d) ∧
    (val s d).1.total_iter = s.total_iter ∧
    (val s d).1.training_epoch = s.training_epoch ∧
    (val s d).1.opt_steps = s.opt_steps ∧
    (val s d).1.checkpoints = s.checkpoints ∧
    (⟨"Validation CLASS accuracy", class_accuracy (pdAll d) (gtAll d),
        s.training_epoch⟩ : LogEvent) ∈ (val s d).1.logs := by
  rw [val_ok s d hok]
  simp

theorem c8_val_witness :
    passOk dDemo = true ∧
    ((val sW dDemo).2 = Except.ok (meanLoss dDemo) ∧
     (val sW dDemo).1.total_iter = sW.total_iter ∧
     (val sW dDemo).1.training_epoch = sW.training_epoch ∧
     (val sW dDemo).1.opt_steps = sW.opt_steps ∧
     (val sW dDemo).1.checkpoints = sW.checkpoints ∧
     (⟨"Validation CLASS accuracy", class_accuracy (pdAll dDemo) (gtAll dDemo),
        sW.training_epoch⟩ : LogEvent) ∈ (val sW dDemo).1.logs) :=
  ⟨rfl, c8_val sW dDemo rfl⟩

/-- C3: immediately after construction both counters are zero, unless the
`model_path` configuration entry is present and truthy, in which case both
equal the values `load_checkpoint` returns from the referenced checkpoint. -/
theorem c3_init_counters (epochs : Nat) (mp : Option String)
    (fs : String → Checkpoint) :
    ((mp = none ∨ mp = some "") →
      (ecgTrainer_init epochs mp fs).training_epoch = 0 ∧
      (ecgTrainer_init epochs mp fs).total_iter = 0) ∧
    (∀ p : String, mp = some p → p ≠ "" →
      (ecgTrainer_init epochs mp fs).training_epoch = (load_checkpoint (fs p)).1 ∧
      (ecgTrainer_init epochs mp fs).total_iter = (load_checkpoint (fs p)).2) := by
  constructor
  · rintro (h | h) <;> subst h <;> simp [ecgTrainer_init]
  · rintro p rfl hne
    simp [ecgTrainer_init, hne]

/-! ### C1: the resumption contract -/

/-- The one batch of the C1 scenario: loss 1, one example, predicted
correctly. -/
def bC1 : Batch := ⟨1, [0], [0]⟩

/-- A fault-free one-batch pass for the C1 scenario. -/
def dC1 : PassData := ⟨[bC1], false⟩

/-- A one-batch, one-example, fault-free loader used by the C1 scenario. -/
def dataC1 : Nat → EpochData := fun _ => ⟨dC1, dC1⟩

/-- A file system with no checkpoint worth loading (never consulted when
`model_path` is absent). -/
def fsNone : String → Checkpoint := fun _ => ⟨"", 0, 0⟩

/-- First run of the C1 scenario: fresh trainer, one configured epoch. -/
def runA : TrainerState := (loop (ecgTrainer_init 1 none fsNone) dataC1).1

/-- The checkpoint the first run writes for its epoch 0: it stores epoch
index 0 (the pre-increment value) and the step count after that epoch's
train pass. -/
def ckptA : Checkpoint := ⟨checkpointName 0, 0, 1⟩

/-- Second run: a trainer constructed from the first run's checkpoint. -/
def resumedB : TrainerState :=
  ecgTrainer_init 1 (some "resume.pth") (fun _ => ckptA)

/-- C1 counterexample: the first run fully completes epoch 0 (its
`training_epoch` ends at 1) and writes exactly the checkpoint `ckptA`,
which stores epoch index 0.  Constructing a trainer from that checkpoint
(the saved epoch index and step count becoming the resume point, per
`load_checkpoint`) yields `training_epoch = 0`, and its `loop()` runs epoch
0 again — re-processing its batch (`total_iter` grows from 1 to 2) and
writing a second checkpoint for epoch 0 — so the already-completed epoch 0
is repeated, contradicting the claim. -/
theorem c1_resume_counterexample :
    runA.training_epoch = 1 ∧
    runA.checkpoints = [ckptA] ∧
    load_checkpoint ckptA = (0, 1) ∧
    resumedB.training_epoch = 0 ∧
    resumedB.total_iter = 1 ∧
    (loop resumedB dataC1).1.training_epoch = 1 ∧
    (loop resumedB dataC1).1.total_iter = 2 ∧
    (loop resumedB dataC1).1.checkpoints.map Checkpoint.epoch = [0] := by
  have hok : ∀ e ∈ [0], passOk (dataC1 e).train = true ∧
      passOk (dataC1 e).valid = true := fun e _ => ⟨rfl, rfl⟩
  have hA : loop (ecgTrainer_init 1 none fsNone) dataC1 =
      loopAux dataC1 ⟨0, 0, 1, [], [], [], 0⟩ [0] := rfl
  obtain ⟨a1, a2, a3, a4, a5⟩ :=
    loopAux_ok dataC1 [0] ⟨0, 0, 1, [], [], [], 0⟩ hok
  have hB : loop resumedB dataC1 = loopAux dataC1 ⟨0, 1, 1, [], [], [], 0⟩ [0] := rfl
  obtain ⟨b1, b2, b3, b4, b5⟩ :=
    loopAux_ok dataC1 [0] ⟨0, 1, 1, [], [], [], 0⟩ hok
  refine ⟨?_, ?_, rfl, rfl, rfl, ?_, ?_, ?_⟩
  · show (loop (ecgTrainer_init 1 none fsNone) dataC1).1.training_epoch = 1
    rw [hA, a2]
    rfl
  · show (loop (ecgTrainer_init 1 none fsNone) dataC1).1.checkpoints = [ckptA]
    rw [hA, a5]
    simp [checkpointsFor, ckptA, dataC1, dC1]
  · rw [hB, b2]
    rfl
  · rw [hB, b4]
    rfl
  · rw [hB, b5]
    simp [checkpointsFor]

/-- C1 amended: within one run `total_iter` never decreases and
`training_epoch` advances once per fully completed train+validate cycle;
`load_checkpoint` restores exactly the saved (epoch index, step count) pair,
and a trainer constructed from the checkpoint written for epoch `e` resumes
with `training_epoch = e` and `total_iter` equal to the saved count, so its
`loop()` runs epochs `e .. epochs-1`: the epoch whose checkpoint was loaded
is itself run again, and no other epoch is repeated or skipped. -/
theorem c1_resume_amended (epochs2 : Nat) (path : String) (c : Checkpoint)
    (fs : String → Checkpoint) (data : Nat → EpochData)
    (hfs : fs path = c) (hpath : path ≠ "")
    (hok : ∀ e, passOk (data e).train = true ∧ passOk (data e).valid = true) :
    (ecgTrainer_init epochs2 (some path) fs).training_epoch = c.epoch ∧
    (ecgTrainer_init epochs2 (some path) fs).total_iter = c.total_iter ∧
    (loop (ecgTrainer_init epochs2 (some path) fs) data).2 = Except.ok () ∧
    (loop (ecgTrainer_init epochs2 (some path) fs) data).1.training_epoch =
      c.epoch + (epochs2 - c.epoch) ∧
    c.total_iter ≤ (loop (ecgTrainer_init epochs2 (some path) fs) data).1.total_iter ∧
    (loop (ecgTrainer_init epochs2 (some path) fs) data).1.checkpoints.map
        Checkpoint.epoch =
      List.range' c.epoch (epochs2 - c.epoch) := by
  have hinit : ecgTrainer_init epochs2 (some path) fs =
      ⟨c.epoch, c.total_iter, epochs2, [], [], [], 0⟩ := by
    simp [ecgTrainer_init, hpath, hfs, load_checkpoint]
  rw [hinit]
  have hl : loop (⟨c.epoch, c.total_iter, epochs2, [], [], [], 0⟩ : TrainerState) data =
      loopAux data ⟨c.epoch, c.total_iter, epochs2, [], [], [], 0⟩
        (List.range' c.epoch (epochs2 - c.epoch)) := rfl
  rw [hl]
  obtain ⟨o1, o2, o3, o4, o5⟩ :=
    loopAux_ok data (List.range' c.epoch (epochs2 - c.epoch))
      ⟨c.epoch, c.total_iter, epochs2, [], [], [], 0⟩
      (fun e _ => hok e)
  refine ⟨rfl, rfl, o1, ?_, ?_, ?_⟩
  · rw [o2]
    simp [List.length_range']
  · rw [o4]
    simp
  · rw [o5]
    simp [checkpointsFor_map_epoch]

theorem c1_resume_amended_witness :
    (fun _ : String => ckptA) "resume.pth" = ckptA ∧
    ("resume.pth" : String) ≠ "" ∧
    (∀ e, passOk (dataC1 e).train = true ∧ passOk (dataC1 e).valid = true) ∧
    ((ecgTrainer_init 1 (some "resume.pth") (fun _ => ckptA)).training_epoch =
        ckptA.epoch ∧
     (ecgTrainer_init 1 (some "resume.pth") (fun _ => ckptA)).total_iter =
        ckptA.total_iter ∧
     (loop (ecgTrainer_init 1 (some "resume.pth") (fun _ => ckptA)) dataC1).2 =
        Except.ok () ∧
     (loop (ecgTrainer_init 1 (some "resume.pth") (fun _ => ckptA))
        dataC1).1.training_epoch = ckptA.epoch + (1 - ckptA.epoch) ∧
     ckptA.total_iter ≤
       (loop (ecgTrainer_init 1 (some "resume.pth") (fun _ => ckptA))
          dataC1).1.total_iter ∧
     (loop (ecgTrainer_init 1 (some "resume.pth") (fun _ => ckptA))
        dataC1).1.checkpoints.map Checkpoint.epoch =
       List.range' ckptA.epoch (1 - ckptA.epoch)) :=
  ⟨rfl, by decide, fun e => ⟨rfl, rfl⟩,
   c1_resume_amended 1 "resume.pth" ckptA (fun _ => ckptA) dataC1 rfl (by decide)
     (fun e => ⟨rfl, rfl⟩)⟩

theorem c10_zero_batches_witness :
    (⟨[], false⟩ : PassData).raises = false ∧
    (⟨[], false⟩ : PassData).batches = [] ∧
    ((train_epoch sW ⟨[], false⟩).2 = Except.error TrainError.divByZero ∧
     (val sW ⟨[], false⟩).2 = Except.error TrainError.divByZero) :=
  ⟨rfl, rfl, c10_zero_batches sW ⟨[], false⟩ rfl rfl⟩

end EcgTrain
